import Mathlib

/-!
Shallow embedding of the `mail` package POP3 and SMTP clients
(`server/relayer/relayer.go`).  Protocol lines are `List Char`; a session
holds the list of incoming raw lines still to be read plus a log of the
items written so far; every fallible operation returns `Except Err`.
Transport writes are modelled as infallible appends to the log.
-/

deriving instance DecidableEq for Except

/-- Characters of a string literal, used to write protocol text. -/
def str (s : String) : List Char := s.data

/-- Errors surfaced by the clients: transport read failure, a protocol
error carrying the raw offending server line, or a TLS handshake failure. -/
inductive Err where
  | io : Err
  | protocol : List Char → Err
  | tls : Err
deriving DecidableEq

/-- Items written to the wire: protocol commands (written through `cmd`)
and DATA-phase payload lines (written directly). -/
inductive Wire where
  | command : List Char → Wire
  | data : List Char → Wire
deriving DecidableEq

/-- `strings.TrimRight(line, "\r\n")`: drop every trailing CR or LF. -/
def trimCRLF (l : List Char) : List Char :=
  (l.reverse.dropWhile (fun c => c == '\r' || c == '\n')).reverse

/-- `strings.TrimRight(line, "\r")`: drop every trailing CR. -/
def trimTrailCR (l : List Char) : List Char :=
  (l.reverse.dropWhile (fun c => c == '\r')).reverse

/-- `unicode.IsSpace` on the code points Go treats as white space. -/
def goIsSpace (c : Char) : Bool :=
  c == ' ' || c == '\t' || c == '\n' || c == Char.ofNat 11 ||
  c == Char.ofNat 12 || c == '\r' || c == Char.ofNat 0x85 ||
  c == Char.ofNat 0xA0 || c.toNat == 0x1680 ||
  (0x2000 ≤ c.toNat && c.toNat ≤ 0x200A) ||
  c.toNat == 0x2028 || c.toNat == 0x2029 || c.toNat == 0x202F ||
  c.toNat == 0x205F || c.toNat == 0x3000

/-- `strings.TrimSpace`. -/
def goTrimSpace (l : List Char) : List Char :=
  ((l.dropWhile goIsSpace).reverse.dropWhile goIsSpace).reverse

/-- Cut a list at the first occurrence of a separator character:
`strings.SplitN(s, string(sep), 2)` yields two parts exactly when this
returns `some`. -/
def cutChar (sep : Char) : List Char → Option (List Char × List Char)
  | [] => none
  | c :: rest =>
    if c = sep then some ([], rest)
    else
      match cutChar sep rest with
      | none => none
      | some (a, b) => some (c :: a, b)

/-- Decimal value of a digit list (most significant first). -/
def digitsToNat (l : List Char) : Nat :=
  l.foldl (fun acc c => acc * 10 + (c.toNat - 48)) 0

/-- Magnitude part of `strconv.Atoi`: empty or non-digit input is a
syntax error (Go returns 0 once the error is discarded); out-of-range
values are clamped the way `strconv.ParseInt` clamps them. -/
def atoiCore (neg : Bool) (ds : List Char) : Int :=
  if ds = [] || !ds.all Char.isDigit then 0
  else
    let n : Int := (digitsToNat ds : Nat)
    if neg then
      if n > 2 ^ 63 then -(2 ^ 63) else -n
    else
      if n > 2 ^ 63 - 1 then 2 ^ 63 - 1 else n

/-- `strconv.Atoi` with the error discarded, as the `List` parser does:
optional sign, decimal digits; anything else yields 0. -/
def goAtoi : List Char → Int
  | [] => 0
  | c :: rest =>
    if c = '+' then atoiCore false rest
    else if c = '-' then atoiCore true rest
    else atoiCore false (c :: rest)

/-- `strings.ToLower` restricted to ASCII letters (header names). -/
def lowerL (l : List Char) : List Char := l.map Char.toLower

/-- The standard base64 alphabet. -/
def b64Alphabet : List Char :=
  str "ABCDEFGHIJKLMNOPQRSTUVWXYZabcdefghijklmnopqrstuvwxyz0123456789+/"

/-- Character for a 6-bit group. -/
def b64Char (n : Nat) : Char := b64Alphabet.getD n 'A'

/-- `base64.StdEncoding.EncodeToString` over a byte list. -/
def base64Enc : List Nat → List Char
  | b1 :: b2 :: b3 :: rest =>
    let w := (b1 % 256) * 65536 + (b2 % 256) * 256 + b3 % 256
    b64Char (w / 262144 % 64) :: b64Char (w / 4096 % 64) ::
      b64Char (w / 64 % 64) :: b64Char (w % 64) :: base64Enc rest
  | [b1, b2] =>
    let w := (b1 % 256) * 65536 + (b2 % 256) * 256
    [b64Char (w / 262144 % 64), b64Char (w / 4096 % 64),
      b64Char (w / 64 % 64), '=']
  | [b1] =>
    let w := (b1 % 256) * 65536
    [b64Char (w / 262144 % 64), b64Char (w / 4096 % 64), '=', '=']
  | [] => []

/-- `strings.Join(lines, "\r\n")`. -/
def joinCRLF : List (List Char) → List Char
  | [] => []
  | [l] => l
  | l :: ls => l ++ '\r' :: '\n' :: joinCRLF ls

/-- `strings.Join(tos, ", ")`. -/
def joinComma : List (List Char) → List Char
  | [] => []
  | [a] => a
  | a :: rest => a ++ str ", " ++ joinComma rest

/-- `strings.Split(s, "\r\n")`: split at each leftmost CRLF pair. -/
def splitOnCRLF : List Char → List (List Char)
  | [] => [[]]
  | [c] => [[c]]
  | c :: d :: rest =>
    if c = '\r' ∧ d = '\n' then [] :: splitOnCRLF rest
    else
      match splitOnCRLF (d :: rest) with
      | [] => [[c]]
      | x :: xs => (c :: x) :: xs

/-- `strings.Split(s, "\n")`. -/
def splitLF : List Char → List (List Char)
  | [] => [[]]
  | c :: rest =>
    if c = '\n' then [] :: splitLF rest
    else
      match splitLF rest with
      | [] => [[c]]
      | x :: xs => (c :: x) :: xs

/-- `strings.Cut(line, ": ")`: cut at the first colon-space pair. -/
def cutColonSpace : List Char → Option (List Char × List Char)
  | [] => none
  | [_] => none
  | c :: d :: rest =>
    if c = ':' ∧ d = ' ' then some ([], rest)
    else
      match cutColonSpace (d :: rest) with
      | none => none
      | some (a, b) => some (c :: a, b)

/-- `strings.SplitN(content, "\r\n\r\n", 2)`: cut at the first blank
CRLF pair, when one exists. -/
def cutBlank : List Char → Option (List Char × List Char)
  | [] => none
  | c :: rest =>
    if c = '\r' ∧ (str "\n\r\n").isPrefixOf rest then some ([], rest.drop 3)
    else
      match cutBlank rest with
      | none => none
      | some (a, b) => some (c :: a, b)

/-- Decimal rendering of an `int`, as `fmt.Sprintf("%d", i)`. -/
def intStr (i : Int) : List Char :=
  if i < 0 then '-' :: Nat.toDigits 10 i.natAbs else Nat.toDigits 10 i.toNat

/-! ## SMTP client -/

/-- The fields of `SMTPConfig` the protocol logic depends on; `User` and
`Pass` are byte lists, as Go encodes them before transmission. -/
structure SMTPCfg where
  user : List Nat
  pass : List Nat
  useSSL : Bool
deriving DecidableEq

/-- SMTP connection state: incoming raw lines still unread, the log of
written items, whether STARTTLS upgraded the session, and whether a TLS
handshake would succeed if attempted (environment oracle). -/
structure Conn where
  input : List (List Char)
  sent : List Wire
  secure : Bool
  tlsOK : Bool
deriving DecidableEq

/-- `SendRequest`. -/
structure SendReq where
  fromAddr : List Char
  toAddrs : List (List Char)
  subject : List Char
  body : List Char
deriving DecidableEq

/-- Continuation test of `SMTPClient.readResponse`: the reply continues
exactly when the line has a 4th character and it is `-`. -/
def contLine (l : List Char) : Bool := l[3]? == some '-'

/-- Error test of `SMTPClient.readResponse`: the final line denotes an
error exactly when it is nonempty and begins with `4` or `5`. -/
def status45 (l : List Char) : Bool :=
  l.head? == some '4' || l.head? == some '5'

/-- `SMTPClient.readResponse` over the incoming line list: trim each raw
line, skip continuation lines, and classify the final line. -/
def readAgg : List (List Char) → Except Err (List Char) × List (List Char)
  | [] => (.error .io, [])
  | raw :: rest =>
    let last := trimCRLF raw
    if contLine last then readAgg rest
    else if status45 last then (.error (.protocol last), rest)
    else (.ok last, rest)

/-- `readResponse` acting on the connection state. -/
def readAggConn (c : Conn) : Except Err (List Char) × Conn :=
  ((readAgg c.input).1, { c with input := (readAgg c.input).2 })

/-- `SMTPClient.cmd`: write the command line, then read one reply. -/
def cmdSMTP (c : Conn) (x : List Char) : Except Err (List Char) × Conn :=
  readAggConn { c with sent := c.sent ++ [Wire.command x] }

/-- `SMTPClient.Connect` after a successful dial: consume the greeting. -/
def smtpConnect (c : Conn) : Except Err Unit × Conn :=
  match readAggConn c with
  | (.error e, c') => (.error e, c')
  | (.ok _, c') => (.ok (), c')

/-- The EHLO/HELO stage of `SMTPClient.Handshake`. -/
def ehloStage (c : Conn) : Except Err Unit × Conn :=
  match cmdSMTP c (str "EHLO mulamail") with
  | (.ok _, c₁) => (.ok (), c₁)
  | (.error _, c₁) =>
    match cmdSMTP c₁ (str "HELO mulamail") with
    | (.ok _, c₂) => (.ok (), c₂)
    | (.error e, c₂) => (.error e, c₂)

/-- The STARTTLS stage of `SMTPClient.Handshake`: attempted only on a
plaintext dial; the upgrade happens only on a `220` reply, and a refused
or failed STARTTLS command leaves the session in plaintext without
error. -/
def starttlsStage (cfg : SMTPCfg) (c : Conn) : Except Err Unit × Conn :=
  if cfg.useSSL then (.ok (), c)
  else
    match cmdSMTP c (str "STARTTLS") with
    | (.ok resp, c₁) =>
      if (str "220").isPrefixOf resp then
        if c₁.tlsOK then
          match cmdSMTP { c₁ with secure := true } (str "EHLO mulamail") with
          | (_, c₂) => (.ok (), c₂)
        else (.error .tls, c₁)
      else (.ok (), c₁)
    | (.error _, c₁) => (.ok (), c₁)

/-- `SMTPClient.Handshake`. -/
def smtpHandshake (cfg : SMTPCfg) (c : Conn) : Except Err Unit × Conn :=
  match ehloStage c with
  | (.error e, c₁) => (.error e, c₁)
  | (.ok _, c₁) => starttlsStage cfg c₁

/-- The `AUTH PLAIN` command text with its base64 payload. -/
def authPlainCmd (cfg : SMTPCfg) : List Char :=
  str "AUTH PLAIN " ++ base64Enc (0 :: (cfg.user ++ 0 :: cfg.pass))

/-- `SMTPClient.authLogin`. -/
def smtpAuthLogin (cfg : SMTPCfg) (c : Conn) : Except Err Unit × Conn :=
  match cmdSMTP c (str "AUTH LOGIN") with
  | (.error e, c₁) => (.error e, c₁)
  | (.ok _, c₁) =>
    match cmdSMTP c₁ (base64Enc cfg.user) with
    | (.error e, c₂) => (.error e, c₂)
    | (.ok _, c₂) =>
      match cmdSMTP c₂ (base64Enc cfg.pass) with
      | (.error e, c₃) => (.error e, c₃)
      | (.ok _, c₃) => (.ok (), c₃)

/-- `SMTPClient.Auth`. -/
def smtpAuth (cfg : SMTPCfg) (c : Conn) : Except Err Unit × Conn :=
  match cmdSMTP c (authPlainCmd cfg) with
  | (.ok resp, c₁) =>
    if (str "235").isPrefixOf resp then (.ok (), c₁)
    else smtpAuthLogin cfg c₁
  | (.error _, c₁) => smtpAuthLogin cfg c₁

/-- The `MAIL FROM` command text. -/
def mailFromCmd (a : List Char) : List Char :=
  str "MAIL FROM:<" ++ a ++ str ">"

/-- The `RCPT TO` command text. -/
def rcptCmd (a : List Char) : List Char :=
  str "RCPT TO:<" ++ a ++ str ">"

/-- The recipient loop of `SMTPClient.Send`: one `RCPT TO` per
recipient, aborting on the first rejection. -/
def rcptAll : List (List Char) → Conn → Except Err Unit × Conn
  | [], c => (.ok (), c)
  | a :: rest, c =>
    match cmdSMTP c (rcptCmd a) with
    | (.error e, c₁) => (.error e, c₁)
    | (.ok _, c₁) => rcptAll rest c₁

/-- The minimal RFC 5322 message `Send` builds; `now` stands for the
formatted `time.Now()` value. -/
def buildMsg (req : SendReq) (now : List Char) : List Char :=
  str "From: " ++ req.fromAddr ++ '\r' :: '\n' ::
  (str "To: " ++ joinComma req.toAddrs ++ '\r' :: '\n' ::
  (str "Subject: " ++ req.subject ++ '\r' :: '\n' ::
  (str "Date: " ++ now ++ '\r' :: '\n' ::
  (str "MIME-Version: 1.0" ++ '\r' :: '\n' ::
  (str "Content-Type: text/plain; charset=UTF-8" ++ '\r' :: '\n' ::
   '\r' :: '\n' :: (req.body ++ ['\r', '\n']))))))

/-- Transmit-side dot-stuffing in `Send`: one extra leading dot on a
line already beginning with a dot. -/
def dotStuff (l : List Char) : List Char :=
  if (str ".").isPrefixOf l then '.' :: l else l

/-- The DATA phase of `SMTPClient.Send`: issue `DATA`, write the message
line by line with dot-stuffing, terminate with a lone dot, and read the
final reply. -/
def dataPhase (req : SendReq) (now : List Char) (c : Conn) :
    Except Err Unit × Conn :=
  match cmdSMTP c (str "DATA") with
  | (.error e, c₁) => (.error e, c₁)
  | (.ok _, c₁) =>
    let wires := (splitLF (buildMsg req now)).map
      (fun l => Wire.data (dotStuff (trimTrailCR l)))
    let c₂ := { c₁ with sent := c₁.sent ++ wires ++ [Wire.data (str ".")] }
    ((readAggConn c₂).1.map (fun _ => ()), (readAggConn c₂).2)

/-- `SMTPClient.Send`. -/
def smtpSend (req : SendReq) (now : List Char) (c : Conn) :
    Except Err Unit × Conn :=
  match cmdSMTP c (mailFromCmd req.fromAddr) with
  | (.error e, c₁) => (.error e, c₁)
  | (.ok _, c₁) =>
    match rcptAll req.toAddrs c₁ with
    | (.error e, c₂) => (.error e, c₂)
    | (.ok _, c₂) => dataPhase req now c₂

/-! ## POP3 client -/

/-- POP3 connection state: unread raw lines and the log of command lines
written. -/
structure PConn where
  input : List (List Char)
  sent : List (List Char)
deriving DecidableEq

/-- `Message`; `fromv` stands for the `From` field. -/
structure Message where
  id : Int
  size : Int
  fromv : List Char
  subject : List Char
  date : List Char
  body : List Char
deriving DecidableEq

/-- `POP3Client.readResponse` over the incoming line list: read one
line; it is an error exactly when it begins with `-ERR`. -/
def pop3Read : List (List Char) → Except Err (List Char) × List (List Char)
  | [] => (.error .io, [])
  | raw :: rest =>
    let line := trimCRLF raw
    (if (str "-ERR").isPrefixOf line then .error (.protocol line)
     else .ok line, rest)

/-- `POP3Client.cmd`. -/
def cmdPOP3 (c : PConn) (x : List Char) : Except Err (List Char) × PConn :=
  ((pop3Read c.input).1,
   { input := (pop3Read c.input).2, sent := c.sent ++ [x] })

/-- `POP3Client.Connect` after a successful dial: consume the greeting. -/
def pop3Connect (c : PConn) : Except Err Unit × PConn :=
  match pop3Read c.input with
  | (.error e, rest) => (.error e, { c with input := rest })
  | (.ok _, rest) => (.ok (), { c with input := rest })

/-- Receive-side dot-unstuffing in `readDot`: strip one leading dot from
a line beginning with two dots. -/
def dotUnstuff (l : List Char) : List Char :=
  if (str "..").isPrefixOf l then l.drop 1 else l

/-- `POP3Client.readDot`: read trimmed lines until a lone dot,
unstuffing each kept line. -/
def readDotGo : List (List Char) →
    Except Err (List (List Char)) × List (List Char)
  | [] => (.error .io, [])
  | raw :: rest =>
    let line := trimCRLF raw
    if line = str "." then (.ok [], rest)
    else
      match readDotGo rest with
      | (.error e, rem) => (.error e, rem)
      | (.ok ls, rem) => (.ok (dotUnstuff line :: ls), rem)

/-- The per-line parser of `POP3Client.List`: trim, split at the first
space (skip when there is none), and read both parts with `Atoi`,
errors discarded. -/
def listLineParse (line : List Char) : Option Message :=
  match cutChar ' ' (goTrimSpace line) with
  | none => none
  | some (a, b) => some ⟨goAtoi a, goAtoi b, [], [], [], []⟩

/-- The parsing loop of `POP3Client.List` over a received block. -/
def pop3ListParse (lines : List (List Char)) : List Message :=
  lines.filterMap listLineParse

/-- `POP3Client.List`. -/
def pop3List (c : PConn) : Except Err (List Message) × PConn :=
  match cmdPOP3 c (str "LIST") with
  | (.error e, c₁) => (.error e, c₁)
  | (.ok _, c₁) =>
    match readDotGo c₁.input with
    | (.error e, rest) => (.error e, { c₁ with input := rest })
    | (.ok lines, rest) => (.ok (pop3ListParse lines), { c₁ with input := rest })

/-- Fold-line test of `parseHeaders`: the line begins with a space or a
tab. -/
def isFoldLine (l : List Char) : Bool :=
  match l.head? with
  | some c => c == ' ' || c == '\t'
  | none => false

/-- Insertion into the header map: a later assignment overwrites an
earlier one. -/
def hUpdate (h : List (List Char × List Char)) (k v : List Char) :
    List (List Char × List Char) := (k, v) :: h

/-- Lookup in the header map; an absent key gives Go's zero string. -/
def hGet (h : List (List Char × List Char)) (k : List Char) : List Char :=
  match h.find? (fun p => p.1 == k) with
  | some p => p.2
  | none => []

/-- The line loop of `parseHeaders`: stop at the first empty line, skip
folded continuation lines, keep only lines cut by `": "`, lowercasing
the key. -/
def hdrGo (h : List (List Char × List Char)) :
    List (List Char) → List (List Char × List Char)
  | [] => h
  | l :: rest =>
    if l = [] then h
    else if isFoldLine l then hdrGo h rest
    else
      match cutColonSpace l with
      | some (k, v) => hdrGo (hUpdate h (lowerL k) v) rest
      | none => hdrGo h rest

/-- `parseHeaders`. -/
def parseHeaders (raw : List Char) : List (List Char × List Char) :=
  hdrGo [] (splitOnCRLF raw)

/-- The headers `Top` extracts from a received block. -/
def topHeaders (lines : List (List Char)) : List (List Char × List Char) :=
  parseHeaders (joinCRLF lines)

/-- The pure part of `POP3Client.Top`: join the block, parse the
headers, and extract the body after the first blank line when a preview
was requested. -/
def pop3TopPure (id bodyLines : Int) (lines : List (List Char)) : Message :=
  let content := joinCRLF lines
  let h := parseHeaders content
  let m : Message :=
    ⟨id, 0, hGet h (str "from"), hGet h (str "subject"),
      hGet h (str "date"), []⟩
  if bodyLines > 0 then
    match cutBlank content with
    | some (_, b) => { m with body := b }
    | none => m
  else m

/-- `POP3Client.Top`. -/
def pop3Top (id bodyLines : Int) (c : PConn) : Except Err Message × PConn :=
  match cmdPOP3 c (str "TOP " ++ intStr id ++ ' ' :: intStr bodyLines) with
  | (.error e, c₁) => (.error e, c₁)
  | (.ok _, c₁) =>
    match readDotGo c₁.input with
    | (.error e, rest) => (.error e, { c₁ with input := rest })
    | (.ok lines, rest) =>
      (.ok (pop3TopPure id bodyLines lines), { c₁ with input := rest })

/-! ## Spec-side definitions -/

/-- The shape `"<id> <size>"` claimed for LIST lines: after trimming,
a nonempty digit run, one space, a nonempty digit run. -/
def matchesIdSize (line : List Char) : Bool :=
  match cutChar ' ' (goTrimSpace line) with
  | none => false
  | some (a, b) =>
    !a.isEmpty && a.all Char.isDigit && !b.isEmpty && b.all Char.isDigit

/-- Modelled from the amended claim for `List()`: a trimmed line
containing a space yields the `Atoi` values of the text before and after
its first space; a line with no space is skipped. -/
def listLineAmended (line : List Char) : Option Message :=
  let t := goTrimSpace line
  if ' ' ∈ t then
    some ⟨goAtoi (t.takeWhile (fun c => !(c == ' '))),
          goAtoi ((t.dropWhile (fun c => !(c == ' '))).drop 1), [], [], [], []⟩
  else none

/-- Whether an operation outcome is an error. -/
def isError {α : Type} : Except Err α → Bool
  | .error _ => true
  | .ok _ => false

/-- Whether a reply outcome is a success carrying a `220` status. -/
def resp220 : Except Err (List Char) → Bool
  | .ok l => (str "220").isPrefixOf l
  | .error _ => false

/-- A logged item that is a `MAIL FROM` command. -/
def isMailFromWire : Wire → Bool
  | .command l => (str "MAIL FROM:").isPrefixOf l
  | .data _ => false

/-- A logged item that is a `RCPT TO` command. -/
def isRcptWire : Wire → Bool
  | .command l => (str "RCPT TO:").isPrefixOf l
  | .data _ => false

/-! ## Helper lemmas -/

lemma isPrefixOf_cons₂ (a b : Char) (as bs : List Char) :
    (a :: as).isPrefixOf (b :: bs) = (a == b && as.isPrefixOf bs) := rfl

lemma head_ne_of_okPfx {l : List Char}
    (h : (str "+OK").isPrefixOf l = true) :
    (str "-ERR").isPrefixOf l = false := by
  rw [List.isPrefixOf_iff_prefix] at h
  by_contra hne
  rw [Bool.not_eq_false, List.isPrefixOf_iff_prefix] at hne
  obtain ⟨t₁, h₁⟩ := h
  obtain ⟨t₂, h₂⟩ := hne
  rw [← h₁] at h₂
  have hcontra : some '-' = some '+' := by
    calc some '-' = (str "-ERR" ++ t₂).head? := rfl
    _ = (str "+OK" ++ t₁).head? := by rw [h₂]
    _ = some '+' := rfl
  simp at hcontra

lemma cmdSMTP_sent (c : Conn) (x : List Char) :
    (cmdSMTP c x).2.sent = c.sent ++ [Wire.command x] := rfl

lemma cmdSMTP_secure (c : Conn) (x : List Char) :
    (cmdSMTP c x).2.secure = c.secure := rfl

/-! ## C5 -/

/-- C5: receive-side dot-unstuffing inverts transmit-side dot-stuffing
on every line, and a line not beginning with a dot is fixed by both. -/
theorem dot_stuff_unstuff_inverse (l : List Char) :
    dotUnstuff (dotStuff l) = l ∧
    (l.head? ≠ some '.' → dotStuff l = l ∧ dotUnstuff l = l) := by
  cases l with
  | nil => exact ⟨rfl, fun _ => ⟨rfl, rfl⟩⟩
  | cons c t =>
    by_cases h : c = '.'
    · subst h
      refine ⟨?_, fun hh => absurd rfl hh⟩
      have h1 : dotStuff ('.' :: t) = '.' :: '.' :: t := by
        simp [dotStuff, str]
      rw [h1]
      simp [dotUnstuff, str]
    · have hch : ¬('.' = c) := fun hh => h hh.symm
      have hs : dotStuff (c :: t) = c :: t := by
        simp [dotStuff, str, hch]
      have hu : dotUnstuff (c :: t) = c :: t := by
        simp [dotUnstuff, str, hch]
      exact ⟨by rw [hs, hu], fun _ => ⟨hs, hu⟩⟩

/-- C5 witness: evaluation at a line not beginning with a dot. -/
theorem dot_stuff_unstuff_inverse_witness :
    dotUnstuff (dotStuff (str "abc")) = str "abc" ∧
    dotStuff (str "abc") = str "abc" ∧ dotUnstuff (str "abc") = str "abc" := by
  obtain ⟨h₁, h₂⟩ := dot_stuff_unstuff_inverse (str "abc")
  obtain ⟨h₃, h₄⟩ := h₂ (by decide)
  exact ⟨h₁, h₃, h₄⟩

/-! ## C2 -/

/-- C2 counterexample: a greeting that does not carry the `+OK` status
and does not begin with `-ERR` is accepted by `Connect`, so the claim
that every non-`+OK` greeting fails is false. -/
theorem pop3_connect_accepts_non_ok_greeting :
    pop3Connect ⟨[str "BANANA"], []⟩ = (.ok (), ⟨[], []⟩) ∧
    (str "+OK").isPrefixOf (str "BANANA") = false := by decide

/-- C2 amended: `Connect` fails exactly when the greeting line begins
with `-ERR`; in particular every `+OK` greeting succeeds. -/
theorem pop3_connect_fails_iff_err_marker (raw : List Char)
    (rest s : List (List Char)) :
    isError (pop3Connect ⟨raw :: rest, s⟩).1 =
      (str "-ERR").isPrefixOf (trimCRLF raw) ∧
    ((str "+OK").isPrefixOf (trimCRLF raw) = true →
      (pop3Connect ⟨raw :: rest, s⟩).1 = .ok ()) := by
  constructor
  · by_cases h : (str "-ERR").isPrefixOf (trimCRLF raw) = true
    · simp [pop3Connect, pop3Read, h, isError]
    · rw [Bool.not_eq_true] at h
      simp [pop3Connect, pop3Read, h, isError]
  · intro hok
    have h := head_ne_of_okPfx hok
    simp [pop3Connect, pop3Read, h]

/-- C2 witness: the amended statement evaluated on an `+OK` greeting. -/
theorem pop3_connect_fails_iff_err_marker_witness :
    isError (pop3Connect ⟨[str "+OK ready"], []⟩).1 =
      (str "-ERR").isPrefixOf (trimCRLF (str "+OK ready")) ∧
    (pop3Connect ⟨[str "+OK ready"], []⟩).1 = .ok () := by
  obtain ⟨h₁, h₂⟩ := pop3_connect_fails_iff_err_marker (str "+OK ready") [] []
  exact ⟨h₁, h₂ (by decide)⟩

/-! ## C3 -/

/-- C3 counterexample: a `354` greeting is not a 2xx status, yet the
SMTP `Connect` accepts it, so the claim that every non-2xx greeting
fails is false. -/
theorem smtp_connect_accepts_non_2xx_greeting :
    smtpConnect ⟨[str "354 go"], [], false, false⟩ =
      (.ok (), ⟨[], [], false, false⟩) ∧
    (trimCRLF (str "354 go")).head? ≠ some '2' := by decide

/-- C3 amended: for a non-continuation greeting line, `Connect` fails
exactly when the line begins with `4` or `5`. -/
theorem smtp_connect_fails_iff_status45 (raw : List Char)
    (rest : List (List Char)) (s : List Wire) (sec tls : Bool)
    (h : contLine (trimCRLF raw) = false) :
    isError (smtpConnect ⟨raw :: rest, s, sec, tls⟩).1 =
      status45 (trimCRLF raw) := by
  by_cases hs : status45 (trimCRLF raw) = true
  · simp [smtpConnect, readAggConn, readAgg, h, hs, isError]
  · rw [Bool.not_eq_true] at hs
    simp [smtpConnect, readAggConn, readAgg, h, hs, isError]

/-- C3 witness: evaluation at the `354` greeting. -/
theorem smtp_connect_fails_iff_status45_witness :
    isError (smtpConnect ⟨[str "354 go"], [], false, false⟩).1 =
      status45 (trimCRLF (str "354 go")) :=
  smtp_connect_fails_iff_status45 (str "354 go") [] [] false false (by decide)

/-! ## C4 -/

/-- C4: the shared reply aggregation consumes lines while the 4th
character is `-`, stops at the first line where it is not, and the
first character of that final line decides the outcome: `4` or `5`
gives an error carrying the line, anything else success. -/
theorem smtp_reply_aggregation_spec (pre : List (List Char)) (l : List Char)
    (rest : List (List Char))
    (hpre : ∀ x ∈ pre, contLine (trimCRLF x) = true)
    (hl : contLine (trimCRLF l) = false) :
    readAgg (pre ++ l :: rest) =
      (if status45 (trimCRLF l) then .error (.protocol (trimCRLF l))
       else .ok (trimCRLF l), rest) := by
  induction pre with
  | nil =>
    simp only [List.nil_append]
    by_cases hs : status45 (trimCRLF l) = true
    · simp [readAgg, hl, hs]
    · rw [Bool.not_eq_true] at hs
      simp [readAgg, hl, hs]
  | cons x xs ih =>
    have hx := hpre x (by simp)
    simp only [List.cons_append]
    rw [show readAgg (x :: (xs ++ l :: rest)) = readAgg (xs ++ l :: rest) by
      simp [readAgg, hx]]
    exact ih (fun y hy => hpre y (by simp [hy]))

/-- C4 witness: the spec's two examples, by the aggregation theorem. -/
theorem smtp_reply_aggregation_spec_witness :
    readAgg [str "250-feature1", str "250-feature2", str "250 OK"] =
      (.ok (str "250 OK"), []) ∧
    readAgg [str "550 rejected"] =
      (.error (.protocol (str "550 rejected")), []) := by
  constructor
  · have h := smtp_reply_aggregation_spec
      [str "250-feature1", str "250-feature2"] (str "250 OK") []
      (by decide) (by decide)
    simpa using h
  · have h := smtp_reply_aggregation_spec [] (str "550 rejected") []
      (by decide) (by decide)
    simpa using h

/-! ## C1 -/

lemma cutChar_eq (sep : Char) (l : List Char) :
    cutChar sep l =
      if sep ∈ l then
        some (l.takeWhile (fun c => !(c == sep)),
              (l.dropWhile (fun c => !(c == sep))).drop 1)
      else none := by
  induction l with
  | nil => simp [cutChar]
  | cons c t ih =>
    by_cases h : c = sep
    · subst h
      simp [cutChar]
    · have hsc : ¬(sep = c) := fun hh => h hh.symm
      have hbc : (c == sep) = false := by simp [h]
      by_cases hm : sep ∈ t
      · simp [cutChar, h, ih, hm, hsc, hbc]
      · simp [cutChar, h, ih, hm, hsc, hbc]

lemma listLineParse_eq_amended (l : List Char) :
    listLineParse l = listLineAmended l := by
  unfold listLineParse listLineAmended
  rw [cutChar_eq]
  by_cases hm : ' ' ∈ goTrimSpace l
  · simp [hm]
  · simp [hm]

/-- C1 counterexample: the line `"foo bar"` does not match the shape
`"<id> <size>"`, yet `List` keeps it as the pair `(0, 0)` instead of
skipping it, both in the parsing loop and in a full run. -/
theorem list_nonmatching_line_not_skipped :
    pop3ListParse [str "foo bar"] = [⟨0, 0, [], [], [], []⟩] ∧
    matchesIdSize (str "foo bar") = false ∧
    pop3List ⟨[str "+OK", str "foo bar", str "."], []⟩ =
      (.ok [⟨0, 0, [], [], [], []⟩], ⟨[], [str "LIST"]⟩) := by decide

/-- C1 amended: `List` keeps, in order, one `(Atoi, Atoi)` pair per
line whose trimmed text contains a space (unparsable numbers giving 0),
skipping exactly the lines with no space; the spec's example block still
parses to `[(1, 100), (2, 200)]`. -/
theorem list_space_split_characterization :
    (∀ lines, pop3ListParse lines = lines.filterMap listLineAmended) ∧
    (∀ l, listLineParse l = none ↔ ' ' ∉ goTrimSpace l) ∧
    pop3List ⟨[str "+OK", str "1 100", str "garbage", str "2 200", str "."], []⟩ =
      (.ok [⟨1, 100, [], [], [], []⟩, ⟨2, 200, [], [], [], []⟩],
       ⟨[], [str "LIST"]⟩) := by
  refine ⟨?_, ?_, by decide⟩
  · intro lines
    unfold pop3ListParse
    rw [show listLineParse = listLineAmended from funext listLineParse_eq_amended]
  · intro l
    unfold listLineParse
    rw [cutChar_eq]
    by_cases hm : ' ' ∈ goTrimSpace l
    · simp [hm]
    · simp [hm]

/-! ## C6 -/

lemma readAggConn_sent (c : Conn) : (readAggConn c).2.sent = c.sent := rfl

lemma snd_sent_of_cmd {c : Conn} {x : List Char}
    {r : Except Err (List Char)} {c' : Conn}
    (h : cmdSMTP c x = (r, c')) :
    c'.sent = c.sent ++ [Wire.command x] := by
  have := congrArg (fun p => p.2.sent) h
  simpa [cmdSMTP_sent] using this.symm

lemma authLogin_sent_pfx (cfg : SMTPCfg) (c : Conn) :
    (c.sent ++ [Wire.command (str "AUTH LOGIN")]) <+:
      (smtpAuthLogin cfg c).2.sent := by
  unfold smtpAuthLogin
  rcases h1 : cmdSMTP c (str "AUTH LOGIN") with ⟨r1, d1⟩
  have hd1 := snd_sent_of_cmd h1
  cases r1 with
  | error e => simp [hd1]
  | ok v1 =>
    dsimp only
    rcases h2 : cmdSMTP d1 (base64Enc cfg.user) with ⟨r2, d2⟩
    have hd2 := snd_sent_of_cmd h2
    have pfx2 : (c.sent ++ [Wire.command (str "AUTH LOGIN")]) <+: d2.sent := by
      rw [hd2, ← hd1]
      exact List.prefix_append _ _
    cases r2 with
    | error e => exact pfx2
    | ok v2 =>
      dsimp only
      rcases h3 : cmdSMTP d2 (base64Enc cfg.pass) with ⟨r3, d3⟩
      have hd3 := snd_sent_of_cmd h3
      have pfx3 : (c.sent ++ [Wire.command (str "AUTH LOGIN")]) <+: d3.sent := by
        rw [hd3]
        exact pfx2.trans (List.prefix_append _ _)
      cases r3 with
      | error e => exact pfx3
      | ok v3 => exact pfx3

/-- C6: whenever the `AUTH PLAIN` attempt (whose command carries the
base64 of `\0user\0pass`) does not come back with a `235` status, `Auth`
runs the `AUTH LOGIN` fallback — so the `AUTH LOGIN` command goes on the
wire after the `AUTH PLAIN` one — and `Auth` returns an error exactly
when the fallback does. -/
theorem smtp_auth_login_fallback (cfg : SMTPCfg) (c : Conn)
    (r : Except Err (List Char)) (c₁ : Conn)
    (hcmd : cmdSMTP c (authPlainCmd cfg) = (r, c₁))
    (hfail : ∀ resp, r = .ok resp → (str "235").isPrefixOf resp = false) :
    smtpAuth cfg c = smtpAuthLogin cfg c₁ ∧
    (c₁.sent ++ [Wire.command (str "AUTH LOGIN")]) <+:
      (smtpAuth cfg c).2.sent ∧
    (c.sent ++ [Wire.command (authPlainCmd cfg)]) <+:
      (smtpAuth cfg c).2.sent := by
  have heq : smtpAuth cfg c = smtpAuthLogin cfg c₁ := by
    unfold smtpAuth
    rw [hcmd]
    cases r with
    | error e => rfl
    | ok resp => simp [hfail resp rfl]
  refine ⟨heq, ?_, ?_⟩
  · rw [heq]
    exact authLogin_sent_pfx cfg c₁
  · rw [heq]
    have hc₁ := snd_sent_of_cmd hcmd
    rw [← hc₁]
    exact (List.prefix_append c₁.sent [Wire.command (str "AUTH LOGIN")]).trans
      (authLogin_sent_pfx cfg c₁)

/-- C6 witness: a run where `AUTH PLAIN` is rejected with `535` and the
LOGIN fallback succeeds. -/
theorem smtp_auth_login_fallback_witness :
    smtpAuth ⟨[0x62], [0x63], false⟩
        ⟨[str "535 no", str "334 u", str "334 p", str "235 ok"], [],
          false, false⟩ =
      smtpAuthLogin ⟨[0x62], [0x63], false⟩
        ⟨[str "334 u", str "334 p", str "235 ok"],
          [Wire.command (str "AUTH PLAIN AGIAYw==")], false, false⟩ ∧
    ([Wire.command (str "AUTH PLAIN AGIAYw=="),
      Wire.command (str "AUTH LOGIN")] : List Wire) <+:
      (smtpAuth ⟨[0x62], [0x63], false⟩
        ⟨[str "535 no", str "334 u", str "334 p", str "235 ok"], [],
          false, false⟩).2.sent := by
  obtain ⟨h₁, h₂, h₃⟩ := smtp_auth_login_fallback ⟨[0x62], [0x63], false⟩
    ⟨[str "535 no", str "334 u", str "334 p", str "235 ok"], [], false, false⟩
    (.error (.protocol (str "535 no")))
    ⟨[str "334 u", str "334 p", str "235 ok"],
      [Wire.command (str "AUTH PLAIN AGIAYw==")], false, false⟩
    (by decide) (fun resp h => nomatch h)
  exact ⟨h₁, by simpa using h₂⟩

/-! ## C8 -/

lemma snd_secure_of_cmd {c : Conn} {x : List Char}
    {r : Except Err (List Char)} {c' : Conn}
    (h : cmdSMTP c x = (r, c')) : c'.secure = c.secure := by
  have := congrArg (fun p => p.2.secure) h
  simpa [cmdSMTP_secure] using this.symm

lemma snd_secure_of_ehlo {c : Conn} {r : Except Err Unit} {c' : Conn}
    (h : ehloStage c = (r, c')) : c'.secure = c.secure := by
  unfold ehloStage at h
  rcases h1 : cmdSMTP c (str "EHLO mulamail") with ⟨r1, d1⟩
  rw [h1] at h
  have hd1 := snd_secure_of_cmd h1
  cases r1 with
  | ok v =>
    injection h with h₂ h₃
    rw [← h₃, hd1]
  | error e =>
    dsimp only at h
    rcases h2 : cmdSMTP d1 (str "HELO mulamail") with ⟨r2, d2⟩
    rw [h2] at h
    have hd2 := snd_secure_of_cmd h2
    cases r2 with
    | ok v =>
      injection h with h₂ h₃
      rw [← h₃, hd2, hd1]
    | error e2 =>
      injection h with h₂ h₃
      rw [← h₃, hd2, hd1]

/-- C8: on a plaintext dial, once the EHLO stage has succeeded, any
STARTTLS outcome other than an accepted `220` reply — an error reply or
a success with a different status — makes `Handshake` return success
with the session still in plaintext. -/
theorem smtp_handshake_starttls_optional (cfg : SMTPCfg) (c c₁ : Conn)
    (r : Except Err (List Char)) (c₂ : Conn)
    (hssl : cfg.useSSL = false) (hsec : c.secure = false)
    (hehlo : ehloStage c = (.ok (), c₁))
    (hst : cmdSMTP c₁ (str "STARTTLS") = (r, c₂))
    (h220 : resp220 r = false) :
    smtpHandshake cfg c = (.ok (), c₂) ∧ c₂.secure = false := by
  have hc₂sec : c₂.secure = false := by
    rw [snd_secure_of_cmd hst, snd_secure_of_ehlo hehlo, hsec]
  refine ⟨?_, hc₂sec⟩
  unfold smtpHandshake
  rw [hehlo]
  dsimp only
  unfold starttlsStage
  rw [hssl]
  dsimp only [Bool.false_eq_true, if_false]
  rw [hst]
  cases r with
  | error e => rfl
  | ok resp =>
    have hr : (str "220").isPrefixOf resp = false := by
      simpa [resp220] using h220
    simp [hr]

/-- C8 witness: a run where the server answers `502` to STARTTLS. -/
theorem smtp_handshake_starttls_optional_witness :
    smtpHandshake ⟨[], [], false⟩ ⟨[str "250 hi", str "502 no"], [], false, true⟩ =
      (.ok (), ⟨[], [Wire.command (str "EHLO mulamail"),
        Wire.command (str "STARTTLS")], false, true⟩) ∧
    (⟨[], [Wire.command (str "EHLO mulamail"),
      Wire.command (str "STARTTLS")], false, true⟩ : Conn).secure = false :=
  smtp_handshake_starttls_optional ⟨[], [], false⟩
    ⟨[str "250 hi", str "502 no"], [], false, true⟩
    ⟨[str "502 no"], [Wire.command (str "EHLO mulamail")], false, true⟩
    (.error (.protocol (str "502 no")))
    ⟨[], [Wire.command (str "EHLO mulamail"),
      Wire.command (str "STARTTLS")], false, true⟩
    rfl rfl (by decide) (by decide) rfl

/-! ## C7 -/

lemma mailFrom_isMailFrom (a : List Char) :
    isMailFromWire (Wire.command (mailFromCmd a)) = true := rfl

lemma rcpt_not_mailFrom (a : List Char) :
    isMailFromWire (Wire.command (rcptCmd a)) = false := rfl

lemma dataCmd_not_mailFrom :
    isMailFromWire (Wire.command (str "DATA")) = false := rfl

lemma dataWire_not_mailFrom (l : List Char) :
    isMailFromWire (Wire.data l) = false := rfl

lemma mailFrom_not_rcpt (a : List Char) :
    isRcptWire (Wire.command (mailFromCmd a)) = false := rfl

lemma dataCmd_not_rcpt : isRcptWire (Wire.command (str "DATA")) = false := rfl

lemma dataWire_not_rcpt (l : List Char) :
    isRcptWire (Wire.data l) = false := rfl

lemma rcptCmd_ne_dataCmd (a : List Char) :
    Wire.command (rcptCmd a) ≠ Wire.command (str "DATA") := by
  intro h
  injection h with h2
  have h3 : some 'R' = some 'D' := congrArg List.head? h2
  simp at h3

lemma mailFromCmd_ne_dataCmd (a : List Char) :
    Wire.command (mailFromCmd a) ≠ Wire.command (str "DATA") := by
  intro h
  injection h with h2
  have h3 : some 'M' = some 'D' := congrArg List.head? h2
  simp at h3

lemma rcptAll_ok_sent :
    ∀ (tos : List (List Char)) (c : Conn) (u : Unit) (c' : Conn),
      rcptAll tos c = (.ok u, c') →
      c'.sent = c.sent ++ tos.map (fun a => Wire.command (rcptCmd a))
  | [], c, u, c', h => by
    unfold rcptAll at h
    injection h with h₁ h₂
    simp [← h₂]
  | a :: rest, c, u, c', h => by
    unfold rcptAll at h
    rcases h1 : cmdSMTP c (rcptCmd a) with ⟨r1, c₁⟩
    rw [h1] at h
    have hc₁ := snd_sent_of_cmd h1
    cases r1 with
    | error e => exact absurd h (by simp)
    | ok v =>
      have := rcptAll_ok_sent rest c₁ u c' h
      rw [this, hc₁]
      simp

lemma rcptAll_error_sent :
    ∀ (tos : List (List Char)) (c : Conn) (e : Err) (c' : Conn),
      rcptAll tos c = (.error e, c') →
      ∃ pre targ post, tos = pre ++ targ :: post ∧
        c'.sent = c.sent ++
          (pre ++ [targ]).map (fun a => Wire.command (rcptCmd a))
  | [], c, e, c', h => by
    unfold rcptAll at h
    exact absurd h (by simp)
  | a :: rest, c, e, c', h => by
    unfold rcptAll at h
    rcases h1 : cmdSMTP c (rcptCmd a) with ⟨r1, c₁⟩
    rw [h1] at h
    have hc₁ := snd_sent_of_cmd h1
    cases r1 with
    | error e1 =>
      injection h with h₂ h₃
      injection h₂ with h₄
      refine ⟨[], a, rest, rfl, ?_⟩
      rw [← h₃, hc₁]
      simp
    | ok v =>
      obtain ⟨pre, targ, post, htos, hsent⟩ :=
        rcptAll_error_sent rest c₁ e c' h
      refine ⟨a :: pre, targ, post, by simp [htos], ?_⟩
      rw [hsent, hc₁]
      simp

lemma dataPhase_sent (req : SendReq) (now : List Char) (c : Conn) :
    ∃ w, (dataPhase req now c).2.sent =
        c.sent ++ Wire.command (str "DATA") :: w ∧
      ∀ x ∈ w, ∃ d, x = Wire.data d := by
  unfold dataPhase
  rcases h1 : cmdSMTP c (str "DATA") with ⟨r1, c₁⟩
  have hc₁ := snd_sent_of_cmd h1
  cases r1 with
  | error e => exact ⟨[], by simp [hc₁], by simp⟩
  | ok v =>
    dsimp only
    refine ⟨(splitLF (buildMsg req now)).map
      (fun l => Wire.data (dotStuff (trimTrailCR l))) ++ [Wire.data (str ".")],
      ?_, ?_⟩
    · simp [readAggConn_sent, hc₁]
    · intro x hx
      rcases List.mem_append.mp hx with hx | hx
      · obtain ⟨l, _, rfl⟩ := List.mem_map.mp hx
        exact ⟨_, rfl⟩
      · simp at hx
        exact ⟨_, hx⟩

lemma smtpSend_sent (req : SendReq) (now : List Char) (c : Conn) :
    ∃ w, (smtpSend req now c).2.sent =
        c.sent ++ Wire.command (mailFromCmd req.fromAddr) :: w ∧
      ∀ x ∈ w, isMailFromWire x = false := by
  unfold smtpSend
  rcases h1 : cmdSMTP c (mailFromCmd req.fromAddr) with ⟨r1, c₁⟩
  have hc₁ := snd_sent_of_cmd h1
  cases r1 with
  | error e => exact ⟨[], by simp [hc₁], by simp⟩
  | ok v =>
    dsimp only
    rcases h2 : rcptAll req.toAddrs c₁ with ⟨r2, c₂⟩
    cases r2 with
    | error e =>
      obtain ⟨pre, targ, post, htos, hsent⟩ := rcptAll_error_sent _ _ _ _ h2
      refine ⟨(pre ++ [targ]).map (fun a => Wire.command (rcptCmd a)),
        by simp [hsent, hc₁], ?_⟩
      intro x hx
      obtain ⟨a, _, rfl⟩ := List.mem_map.mp hx
      exact rcpt_not_mailFrom a
    | ok u =>
      dsimp only
      have hsent := rcptAll_ok_sent _ _ _ _ h2
      obtain ⟨w, hw, hwall⟩ := dataPhase_sent req now c₂
      refine ⟨req.toAddrs.map (fun a => Wire.command (rcptCmd a)) ++
        Wire.command (str "DATA") :: w, ?_, ?_⟩
      · rw [hw, hsent, hc₁]
        simp
      · intro x hx
        rcases List.mem_append.mp hx with hx | hx
        · obtain ⟨a, _, rfl⟩ := List.mem_map.mp hx
          exact rcpt_not_mailFrom a
        · rcases List.mem_cons.mp hx with rfl | hx
          · exact dataCmd_not_mailFrom
          · obtain ⟨d, rfl⟩ := hwall x hx
            exact dataWire_not_mailFrom d

/-- C7: every `Send` run issues exactly one `MAIL FROM` command; the
recipient loop stops at the first rejected `RCPT TO`, sending commands
exactly for the recipients up to and including the rejected one; and
when a recipient is rejected after an accepted `MAIL FROM`, `Send`
returns that error at once, never issuing `DATA`. -/
theorem smtp_send_abort_on_rejected_rcpt :
    (∀ (req : SendReq) (now : List Char) (c : Conn),
      List.countP isMailFromWire
        (((smtpSend req now c).2.sent).drop c.sent.length) = 1) ∧
    (∀ (tos : List (List Char)) (c : Conn) (e : Err) (c' : Conn),
      rcptAll tos c = (.error e, c') →
      ∃ pre targ post, tos = pre ++ targ :: post ∧
        c'.sent = c.sent ++
          (pre ++ [targ]).map (fun a => Wire.command (rcptCmd a))) ∧
    (∀ (req : SendReq) (now : List Char) (c : Conn) (l : List Char)
        (c₁ : Conn) (e : Err) (c₂ : Conn),
      cmdSMTP c (mailFromCmd req.fromAddr) = (.ok l, c₁) →
      rcptAll req.toAddrs c₁ = (.error e, c₂) →
      smtpSend req now c = (.error e, c₂) ∧
      Wire.command (str "DATA") ∉ c₂.sent.drop c.sent.length) := by
  refine ⟨?_, rcptAll_error_sent, ?_⟩
  · intro req now c
    obtain ⟨w, hw, hwall⟩ := smtpSend_sent req now c
    rw [hw, List.drop_left, List.countP_cons]
    have h0 : List.countP isMailFromWire w = 0 :=
      List.countP_eq_zero.mpr (by simpa using hwall)
    simp [h0, mailFrom_isMailFrom]
  · intro req now c l c₁ e c₂ hmf hrcpt
    have hc₁ := snd_sent_of_cmd hmf
    obtain ⟨pre, targ, post, htos, hsent⟩ := rcptAll_error_sent _ _ _ _ hrcpt
    constructor
    · unfold smtpSend
      rw [hmf]
      dsimp only
      rw [hrcpt]
    · rw [hsent, hc₁]
      rw [List.append_assoc, List.drop_left]
      intro hmem
      rcases List.mem_append.mp hmem with hx | hx
      · have h := List.mem_singleton.mp hx
        exact mailFromCmd_ne_dataCmd _ h.symm
      · obtain ⟨a, _, ha⟩ := List.mem_map.mp hx
        exact rcptCmd_ne_dataCmd a ha

/-- C7 witness: a run with two recipients where the second is rejected:
the second `RCPT TO` is the final command and `DATA` is never sent. -/
theorem smtp_send_abort_on_rejected_rcpt_witness :
    smtpSend ⟨str "a@b", [str "r1", str "r2"], str "s", str "body"⟩
        (str "now") ⟨[str "250 ok", str "250 ok", str "550 no"], [],
          false, false⟩ =
      (.error (.protocol (str "550 no")),
        ⟨[], [Wire.command (str "MAIL FROM:<a@b>"),
          Wire.command (str "RCPT TO:<r1>"),
          Wire.command (str "RCPT TO:<r2>")], false, false⟩) ∧
    Wire.command (str "DATA") ∉
      ([Wire.command (str "MAIL FROM:<a@b>"),
        Wire.command (str "RCPT TO:<r1>"),
        Wire.command (str "RCPT TO:<r2>")] : List Wire).drop 0 := by
  have h := (smtp_send_abort_on_rejected_rcpt.2.2)
    ⟨str "a@b", [str "r1", str "r2"], str "s", str "body"⟩ (str "now")
    ⟨[str "250 ok", str "250 ok", str "550 no"], [], false, false⟩
    (str "250 ok")
    ⟨[str "250 ok", str "550 no"],
      [Wire.command (str "MAIL FROM:<a@b>")], false, false⟩
    (.protocol (str "550 no"))
    ⟨[], [Wire.command (str "MAIL FROM:<a@b>"),
      Wire.command (str "RCPT TO:<r1>"),
      Wire.command (str "RCPT TO:<r2>")], false, false⟩
    (by decide) (by decide)
  exact h

/-! ## C10 -/

/-- C10: with an empty recipient list, `Send` performs no client-side
check: it runs `MAIL FROM` and goes straight to the DATA phase, sends
no `RCPT TO` command at all, and issues `DATA` whenever the server
accepted `MAIL FROM`. -/
theorem smtp_send_empty_recipients (req : SendReq) (now : List Char)
    (c : Conn) (h : req.toAddrs = []) :
    smtpSend req now c =
      (match cmdSMTP c (mailFromCmd req.fromAddr) with
       | (.error e, c₁) => (.error e, c₁)
       | (.ok _, c₁) => dataPhase req now c₁) ∧
    List.countP isRcptWire ((smtpSend req now c).2.sent) =
      List.countP isRcptWire c.sent ∧
    (∀ l c₁, cmdSMTP c (mailFromCmd req.fromAddr) = (.ok l, c₁) →
      Wire.command (str "DATA") ∈ (smtpSend req now c).2.sent) := by
  have heq : smtpSend req now c =
      (match cmdSMTP c (mailFromCmd req.fromAddr) with
       | (.error e, c₁) => (.error e, c₁)
       | (.ok _, c₁) => dataPhase req now c₁) := by
    unfold smtpSend
    rw [h]
    rcases h1 : cmdSMTP c (mailFromCmd req.fromAddr) with ⟨r1, c₁⟩
    cases r1 with
    | error e => rfl
    | ok v => rfl
  refine ⟨heq, ?_, ?_⟩
  · rw [heq]
    rcases h1 : cmdSMTP c (mailFromCmd req.fromAddr) with ⟨r1, c₁⟩
    have hc₁ := snd_sent_of_cmd h1
    cases r1 with
    | error e =>
      simp [hc₁, List.countP_append, mailFrom_not_rcpt, List.countP_cons]
    | ok v =>
      obtain ⟨w, hw, hwall⟩ := dataPhase_sent req now c₁
      dsimp only
      rw [hw, hc₁]
      have h0 : List.countP isRcptWire w = 0 := by
        refine List.countP_eq_zero.mpr ?_
        intro x hx
        obtain ⟨d, rfl⟩ := hwall x hx
        simp [dataWire_not_rcpt]
      simp [List.countP_append, List.countP_cons, h0, mailFrom_not_rcpt,
        dataCmd_not_rcpt]
  · intro l c₁ h1
    rw [heq, h1]
    dsimp only
    obtain ⟨w, hw, hwall⟩ := dataPhase_sent req now c₁
    rw [hw]
    simp

/-- C10 witness: a concrete empty-recipient run. -/
theorem smtp_send_empty_recipients_witness :
    List.countP isRcptWire
      ((smtpSend ⟨str "a@b", [], str "s", str "hi"⟩ (str "now")
        ⟨[str "250 ok", str "354 go", str "250 sent"], [],
          false, false⟩).2.sent) =
      List.countP isRcptWire
        (⟨[str "250 ok", str "354 go", str "250 sent"], [],
          false, false⟩ : Conn).sent ∧
    Wire.command (str "DATA") ∈
      (smtpSend ⟨str "a@b", [], str "s", str "hi"⟩ (str "now")
        ⟨[str "250 ok", str "354 go", str "250 sent"], [],
          false, false⟩).2.sent := by
  have h := smtp_send_empty_recipients ⟨str "a@b", [], str "s", str "hi"⟩
    (str "now")
    ⟨[str "250 ok", str "354 go", str "250 sent"], [], false, false⟩ rfl
  refine ⟨h.2.1, h.2.2 (str "250 ok")
    ⟨[str "354 go", str "250 sent"],
      [Wire.command (str "MAIL FROM:<a@b>")], false, false⟩ (by decide)⟩

/-! ## C9 -/

lemma splitOnCRLF_noLF : ∀ (l : List Char), '\n' ∉ l → splitOnCRLF l = [l]
  | [], _ => rfl
  | [_], _ => rfl
  | c :: d :: t, h => by
    have hd : ¬(d = '\n') := fun hh => h (by simp [hh])
    have ih := splitOnCRLF_noLF (d :: t) (fun hm => h (List.mem_cons_of_mem _ hm))
    simp [splitOnCRLF, hd, ih]

lemma splitOnCRLF_append : ∀ (l s : List Char), '\n' ∉ l →
    splitOnCRLF (l ++ '\r' :: '\n' :: s) = l :: splitOnCRLF s
  | [], s, _ => by simp [splitOnCRLF]
  | [c], s, _ => by
    have hrn : ¬(('\r' : Char) = '\n') := by decide
    simp [splitOnCRLF, hrn]
  | c :: d :: t, s, h => by
    have hd : ¬(d = '\n') := fun hh => h (by simp [hh])
    have ih := splitOnCRLF_append (d :: t) s
      (fun hm => h (List.mem_cons_of_mem _ hm))
    simp only [List.cons_append] at ih ⊢
    simp [splitOnCRLF, hd, ih]

lemma split_join_go : ∀ (pre : List (List Char)) (s : List Char),
    (∀ l ∈ pre, '\n' ∉ l) → pre ≠ [] →
    splitOnCRLF (joinCRLF pre ++ '\r' :: '\n' :: s) = pre ++ splitOnCRLF s
  | [], _, _, hne => absurd rfl hne
  | [x], s, h, _ => by
    simpa [joinCRLF] using splitOnCRLF_append x s (h x (by simp))
  | x :: x₂ :: xs, s, h, _ => by
    have ih := split_join_go (x₂ :: xs) s
      (fun l hl => h l (by simp [hl])) (by simp)
    have hx : '\n' ∉ x := h x (by simp)
    calc splitOnCRLF (joinCRLF (x :: x₂ :: xs) ++ '\r' :: '\n' :: s)
        = splitOnCRLF
            (x ++ '\r' :: '\n' :: (joinCRLF (x₂ :: xs) ++ '\r' :: '\n' :: s)) := by
          simp [joinCRLF]
      _ = x :: splitOnCRLF (joinCRLF (x₂ :: xs) ++ '\r' :: '\n' :: s) :=
          splitOnCRLF_append _ _ hx
      _ = x :: ((x₂ :: xs) ++ splitOnCRLF s) := by rw [ih]
      _ = (x :: x₂ :: xs) ++ splitOnCRLF s := rfl

lemma split_join_id : ∀ (lines : List (List Char)),
    (∀ l ∈ lines, '\n' ∉ l) → lines ≠ [] →
    splitOnCRLF (joinCRLF lines) = lines
  | [], _, hne => absurd rfl hne
  | [x], h, _ => by
    simpa [joinCRLF] using splitOnCRLF_noLF x (h x (by simp))
  | x :: x₂ :: xs, h, _ => by
    have ih := split_join_id (x₂ :: xs) (fun l hl => h l (by simp [hl])) (by simp)
    calc splitOnCRLF (joinCRLF (x :: x₂ :: xs))
        = splitOnCRLF (x ++ '\r' :: '\n' :: joinCRLF (x₂ :: xs)) := by
          simp [joinCRLF]
      _ = x :: splitOnCRLF (joinCRLF (x₂ :: xs)) :=
          splitOnCRLF_append _ _ (h x (by simp))
      _ = x :: x₂ :: xs := by rw [ih]

lemma hdrGo_blank : ∀ (h : List (List Char × List Char))
    (pre rest : List (List Char)),
    hdrGo h (pre ++ [] :: rest) = hdrGo h pre
  | h, [], rest => by simp [hdrGo]
  | h, l :: pre', rest => by
    by_cases hl : l = []
    · simp [hdrGo, hl]
    · by_cases hf : isFoldLine l = true
      · simp [hdrGo, hl, hf, hdrGo_blank h pre' rest]
      · rw [Bool.not_eq_true] at hf
        cases hc : cutColonSpace l with
        | some kv =>
          simp [hdrGo, hl, hf, hc, hdrGo_blank (hUpdate h (lowerL kv.1) kv.2) pre' rest]
        | none => simp [hdrGo, hl, hf, hc, hdrGo_blank h pre' rest]

lemma joinCRLF_append : ∀ (a b : List (List Char)), a ≠ [] → b ≠ [] →
    joinCRLF (a ++ b) = joinCRLF a ++ '\r' :: '\n' :: joinCRLF b
  | [], _, ha, _ => absurd rfl ha
  | [x], b, _, hb => by
    cases b with
    | nil => exact absurd rfl hb
    | cons y ys => simp [joinCRLF]
  | x :: x₂ :: xs, b, _, hb => by
    have ih := joinCRLF_append (x₂ :: xs) b (by simp) hb
    simp only [List.cons_append] at ih ⊢
    simp [joinCRLF, ih]

lemma topHeaders_blank (pre post : List (List Char))
    (hpre : ∀ l ∈ pre, '\n' ∉ l) :
    topHeaders (pre ++ [] :: post) = topHeaders pre := by
  cases pre with
  | nil =>
    cases post with
    | nil => rfl
    | cons p ps =>
      show hdrGo [] (splitOnCRLF (joinCRLF ([] :: p :: ps))) =
        hdrGo [] (splitOnCRLF (joinCRLF []))
      have hj : joinCRLF ([] :: p :: ps) = '\r' :: '\n' :: joinCRLF (p :: ps) := by
        simp [joinCRLF]
      rw [hj]
      have hs : splitOnCRLF ('\r' :: '\n' :: joinCRLF (p :: ps)) =
          [] :: splitOnCRLF (joinCRLF (p :: ps)) := by
        simp [splitOnCRLF]
      rw [hs]
      rfl
  | cons l pre' =>
    have hne : (l :: pre') ≠ [] := by simp
    have hid := split_join_id (l :: pre') hpre hne
    show hdrGo [] (splitOnCRLF (joinCRLF ((l :: pre') ++ [] :: post))) =
      hdrGo [] (splitOnCRLF (joinCRLF (l :: pre')))
    rw [hid]
    have hjoin : joinCRLF ((l :: pre') ++ [] :: post) =
        joinCRLF (l :: pre') ++ '\r' :: '\n' :: joinCRLF ([] :: post) :=
      joinCRLF_append (l :: pre') ([] :: post) hne (by simp)
    rw [hjoin, split_join_go (l :: pre') _ hpre hne]
    cases post with
    | nil => exact hdrGo_blank [] (l :: pre') []
    | cons p ps =>
      have hj : joinCRLF ([] :: p :: ps) = '\r' :: '\n' :: joinCRLF (p :: ps) := by
        simp [joinCRLF]
      rw [hj]
      have hs : splitOnCRLF ('\r' :: '\n' :: joinCRLF (p :: ps)) =
          [] :: splitOnCRLF (joinCRLF (p :: ps)) := by
        simp [splitOnCRLF]
      rw [hs]
      exact hdrGo_blank [] (l :: pre') _

lemma pop3TopPure_fields (id n : Int) (lines : List (List Char)) :
    (pop3TopPure id n lines).fromv = hGet (topHeaders lines) (str "from") ∧
    (pop3TopPure id n lines).subject =
      hGet (topHeaders lines) (str "subject") ∧
    (pop3TopPure id n lines).date = hGet (topHeaders lines) (str "date") := by
  unfold pop3TopPure topHeaders
  by_cases hn : n > 0
  · simp only [hn, if_true]
    cases hcb : cutBlank (joinCRLF lines) with
    | some p => rcases p with ⟨x, b⟩; simp [hcb]
    | none => simp [hcb]
  · simp [hn]

/-- C9: the header extraction of `Top` reads only the lines before the
first blank line (so a `From:`, `Subject:` or `Date:` line in the body
never populates the returned `Message`), stops at the blank line, skips
folded continuation lines, drops lines lacking the `": "` separator,
and stores keys lowercased, which makes the name match
case-insensitive. -/
theorem top_headers_stop_at_blank_line :
    (∀ pre post : List (List Char), (∀ l ∈ pre, '\n' ∉ l) →
      topHeaders (pre ++ [] :: post) = topHeaders pre ∧
      ∀ id n : Int,
        (pop3TopPure id n (pre ++ [] :: post)).fromv =
          hGet (topHeaders pre) (str "from") ∧
        (pop3TopPure id n (pre ++ [] :: post)).subject =
          hGet (topHeaders pre) (str "subject") ∧
        (pop3TopPure id n (pre ++ [] :: post)).date =
          hGet (topHeaders pre) (str "date")) ∧
    (∀ (h : List (List Char × List Char)) (rest : List (List Char)),
      hdrGo h ([] :: rest) = h) ∧
    (∀ (h : List (List Char × List Char)) (c : Char) (l : List Char)
        (rest : List (List Char)), (c = ' ' ∨ c = '\t') →
      hdrGo h ((c :: l) :: rest) = hdrGo h rest) ∧
    (∀ (h : List (List Char × List Char)) (l : List Char)
        (rest : List (List Char)), l ≠ [] → isFoldLine l = false →
      cutColonSpace l = none → hdrGo h (l :: rest) = hdrGo h rest) ∧
    (∀ (h : List (List Char × List Char)) (l : List Char)
        (rest : List (List Char)) (k v : List Char), l ≠ [] →
      isFoldLine l = false → cutColonSpace l = some (k, v) →
      hdrGo h (l :: rest) = hdrGo (hUpdate h (lowerL k) v) rest) := by
  refine ⟨?_, ?_, ?_, ?_, ?_⟩
  · intro pre post hpre
    have ht := topHeaders_blank pre post hpre
    refine ⟨ht, fun id n => ?_⟩
    obtain ⟨h1, h2, h3⟩ := pop3TopPure_fields id n (pre ++ [] :: post)
    exact ⟨by rw [h1, ht], by rw [h2, ht], by rw [h3, ht]⟩
  · intro h rest
    simp [hdrGo]
  · intro h c l rest hc
    have hf : isFoldLine (c :: l) = true := by
      rcases hc with rfl | rfl <;> simp [isFoldLine]
    simp [hdrGo, hf]
  · intro h l rest hne hf hcut
    simp [hdrGo, hne, hf, hcut]
  · intro h l rest k v hne hf hcut
    simp [hdrGo, hne, hf, hcut]

/-- C9 witness: a `From:` line after the blank line does not affect the
extracted headers. -/
theorem top_headers_stop_at_blank_line_witness :
    topHeaders ([str "From: a"] ++ [] :: [str "From: b"]) =
      topHeaders [str "From: a"] ∧
    (pop3TopPure 3 0 ([str "From: a"] ++ [] :: [str "From: b"])).fromv =
      hGet (topHeaders [str "From: a"]) (str "from") := by
  obtain ⟨h1, h2⟩ := (top_headers_stop_at_blank_line.1)
    [str "From: a"] [str "From: b"] (by decide)
  exact ⟨h1, (h2 3 0).1⟩
